import Mathlib

/-!
# Verification of the automated HINT adaptive controller and scoring engine

Shallow embedding of the algorithmic core of the `automated_hint` repository:

* `src/models/scoremodel.py` — `ScoreModel` with `_get_word_lists`,
  `_get_outcome`, `score` and `get_snr`;
* `src/controller.py` — `_prepare_trials` (trial selection), `_save`
  (per-trial CSV persistence with caught `PermissionError`/`OSError`) and
  `on_next` (the per-trial control step).

The adaptive staircase itself (`tmpy.handlers.AdaptiveTrialHandler`) is
imported from the external `tmpy` package and its implementation is not part
of this repository; it is modelled from the spec where needed.

Levels (dB values, Python floats) are embedded as rationals; the integer
step sizes as `Int`.  Python code that can raise is embedded in `Option`.
-/

namespace HINT

/-! ## ScoreModel (`src/models/scoremodel.py`) -/

/-- The pair of word lists built by `ScoreModel._get_word_lists`
(`resp_dict` with keys `correct` / `incorrect`). -/
structure RespDict where
  correct : List String
  incorrect : List String
deriving DecidableEq, Repr

/-- `ScoreModel._get_word_lists`: loop over `button_states.items()` in
mapping order; a state of `1` appends `words[key].cget('text')` to
`correct`, a state of `0` appends it to `incorrect`, any other state
appends to neither.  `words` is embedded as the key-to-text lookup. -/
def get_word_lists (words : String → String) : List (String × Int) → RespDict
  | [] => ⟨[], []⟩
  | (k, v) :: rest =>
      let r := get_word_lists words rest
      if v = 1 then ⟨words k :: r.correct, r.incorrect⟩
      else if v = 0 then ⟨r.correct, words k :: r.incorrect⟩
      else r

/-- `ScoreModel._get_outcome`: `1` (PASS) when `resp_dict['incorrect']` is
empty, else `-1` (FAIL); the value the method stores into `self.outcome`. -/
def get_outcome (r : RespDict) : Int :=
  if r.incorrect = [] then 1 else -1

/-- The mutable attributes a `ScoreModel` instance can carry.
`__init__` sets neither, so both start absent (`none`); `_get_outcome`
assigns `self.outcome` and `get_snr` assigns `self.final_snr`. -/
structure ScoreModel where
  outcome : Option Int
  final_snr : Option ℚ
deriving DecidableEq, Repr

/-- A freshly constructed `ScoreModel()`: no `outcome`, no `final_snr`. -/
def ScoreModel.init : ScoreModel := ⟨none, none⟩

/-- `ScoreModel.score`: builds the word lists, stores the outcome in the
public attribute, and returns the `resp_dict`. -/
def ScoreModel.score (sm : ScoreModel) (words : String → String)
    (button_states : List (String × Int)) : ScoreModel × RespDict :=
  let r := get_word_lists words button_states
  ({ sm with outcome := some (get_outcome r) }, r)

/-- `statistics.mean`: sum divided by length; raises `StatisticsError`
(embedded as `none`) on an empty sequence. -/
def mean (xs : List ℚ) : Option ℚ :=
  if xs = [] then none else some (xs.sum / xs.length)

/-- `ScoreModel.get_snr`: `statistics.mean(trial_levels[4:]) - noise_level`,
the value stored into `self.final_snr`; `none` when `statistics.mean`
raises on the empty slice. -/
def get_snr (trial_levels : List ℚ) (noise_level : ℚ) : Option ℚ :=
  (mean (trial_levels.drop 4)).map (fun avg_level => avg_level - noise_level)

/-! ## Trial selection (`Application._prepare_trials`, `src/controller.py`) -/

/-- One row of the HINT sentence matrix file (spec: Trial Definition). -/
structure Trial where
  list_num : Int
  sentence_num : Int
  sentence : String
  file : String
deriving DecidableEq, Repr

/-- `_prepare_trials`: `mask = matrix['list_num'].isin(lists);
matrix[mask]` — the pandas boolean-mask row filter keeps, in source order,
exactly the rows whose `list_num` is in `lists`. -/
def select_trials (matrix : List Trial) (lists : List Int) : List Trial :=
  matrix.filter (fun t => t.list_num ∈ lists)

/-! ## Adaptive staircase handler

`tmpy.handlers.AdaptiveTrialHandler` is imported from the external `tmpy`
package; its implementation is not in this repository, so it is modelled
from the spec (§4.2). -/

/-- A binary trial outcome fed back to the staircase (`ScoreModel` realizes
PASS as `1` and FAIL as `-1`). -/
inductive Outcome where
  | pass : Outcome
  | fail : Outcome
deriving DecidableEq, Repr

/-- Modelled from the spec: the Staircase State owned by
`tmpy.handlers.AdaptiveTrialHandler` (absent from this repository) —
`{trial_index, current_level, level_history}` plus the immutable step-size
schedule; `parameter` is the handler attribute the controller reads as the
current level. -/
structure AdaptiveTrialHandler where
  step_sizes : List Int
  parameter : ℚ
  trial_index : Nat
  level_history : List ℚ
deriving DecidableEq, Repr

/-- Modelled from the spec: a freshly constructed handler at the starting
level, before any trial has been scored. -/
def AdaptiveTrialHandler.init (step_sizes : List Int) (starting_level : ℚ) :
    AdaptiveTrialHandler :=
  ⟨step_sizes, starting_level, 0, []⟩

/-- Modelled from the spec: the step-size schedule index for trial `i` is
`min(i, step_sizes.length - 1)`, so the last step size repeats once the
schedule is exhausted. -/
def step_at (step_sizes : List Int) (i : Nat) : Int :=
  step_sizes.getD (min i (step_sizes.length - 1)) 0

/-- Modelled from the spec: `advance` of the Adaptive Trial Handler —
record `current_level` into `level_history`, apply the scheduled step
(up on FAIL, down on PASS), increment `trial_index`. -/
def AdaptiveTrialHandler.advance (h : AdaptiveTrialHandler)
    (outcome : Outcome) : AdaptiveTrialHandler :=
  let step : ℚ := (step_at h.step_sizes h.trial_index : Int)
  { h with
    level_history := h.level_history ++ [h.parameter]
    parameter :=
      match outcome with
      | .fail => h.parameter + step
      | .pass => h.parameter - step
    trial_index := h.trial_index + 1 }

/-- A whole session run: fold `advance` over a list of outcomes. -/
def AdaptiveTrialHandler.run (h : AdaptiveTrialHandler)
    (outcomes : List Outcome) : AdaptiveTrialHandler :=
  outcomes.foldl AdaptiveTrialHandler.advance h

/-! ## Controller (`Application.on_next` and `_save`, `src/controller.py`) -/

/-- How one `DataHandler.save_data` call behaves for the current
destination: succeeds, or raises `PermissionError` / `OSError`. -/
inductive SaveResult where
  | ok : SaveResult
  | permissionError : SaveResult
  | osError : SaveResult
deriving DecidableEq, Repr

/-- `Application._save`: attempt the write; `PermissionError` and `OSError`
are caught, reported in a messagebox, and swallowed (`return`), so `_save`
always returns control to `on_next`.  The list of rows actually written to
the CSV is threaded explicitly. -/
def save_step (rows : List RespDict) (result : SaveResult)
    (responses : RespDict) : List RespDict :=
  match result with
  | .ok => rows ++ [responses]
  | .permissionError => rows
  | .osError => rows

/-- The controller state touched by `on_next`: the `start_flag`, the
`level_data` list, the score model, the adaptive handler, the current
`settings['desired_level_dB']` value, and the rows written so far. -/
structure Controller where
  start_flag : Bool
  level_data : List ℚ
  sm : ScoreModel
  ath : AdaptiveTrialHandler
  desired_level : ℚ
  saved_rows : List RespDict
deriving DecidableEq, Repr

/-- The controller at session start (`on_start` just built the handler;
`start_flag` is still `True`, nothing scored, nothing saved). -/
def Controller.init (step_sizes : List Int) (starting_level : ℚ)
    (desired_level : ℚ) : Controller :=
  ⟨true, [], ScoreModel.init, AdaptiveTrialHandler.init step_sizes starting_level,
    desired_level, []⟩

/-- `Application.on_next`: when `start_flag` is false, score the response,
call `_save` (which swallows persistence errors), and append
`settings['desired_level_dB']` to `level_data`; clear `start_flag`; then
`self.ath.next(response=self.sm.outcome)` — the attribute read
`self.sm.outcome` raises `AttributeError` (embedded as `none`) when
`score` has never assigned it.  After advancing, `play` runs
`_calc_level(self.ath.parameter)`, which stores the handler's new level
into `settings['desired_level_dB']`. -/
def on_next (c : Controller) (words : String → String)
    (button_states : List (String × Int)) (sr : SaveResult) :
    Option Controller :=
  let c1 :=
    if c.start_flag then c
    else
      let (sm', responses) := c.sm.score words button_states
      { c with
        sm := sm'
        saved_rows := save_step c.saved_rows sr responses
        level_data := c.level_data ++ [c.desired_level] }
  let c2 := { c1 with start_flag := false }
  match c2.sm.outcome with
  | none => none
  | some o =>
      let outc : Outcome := if o = 1 then .pass else .fail
      let ath' := c2.ath.advance outc
      some { c2 with ath := ath', desired_level := ath'.parameter }

/-- A concrete mid-session controller state: the first trial has been
presented (`start_flag` cleared by the initial `on_next`), its level was
69 dB, and a previous outcome is stored on the score model. -/
def cDemo : Controller :=
  ⟨false, [], ⟨some 1, none⟩, ⟨[4, 4, 2], 69, 1, [65]⟩, 69, []⟩

/-! ## Helper lemmas -/

/-- The `correct` list is, in mapping order, the text of every word whose
checkbutton state is `1`. -/
theorem get_word_lists_correct (words : String → String) :
    ∀ bs : List (String × Int),
      (get_word_lists words bs).correct
        = (bs.filter (fun kv => kv.2 == 1)).map (fun kv => words kv.1)
  | [] => rfl
  | (k, v) :: rest => by
      by_cases h1 : v = 1
      · simp [get_word_lists, h1, get_word_lists_correct words rest]
      · by_cases h0 : v = 0 <;>
          simp [get_word_lists, h1, h0, get_word_lists_correct words rest]

/-- The `incorrect` list is, in mapping order, the text of every word whose
checkbutton state is `0`. -/
theorem get_word_lists_incorrect (words : String → String) :
    ∀ bs : List (String × Int),
      (get_word_lists words bs).incorrect
        = (bs.filter (fun kv => kv.2 == 0)).map (fun kv => words kv.1)
  | [] => rfl
  | (k, v) :: rest => by
      by_cases h1 : v = 1
      · simp [get_word_lists, h1, get_word_lists_incorrect words rest]
      · by_cases h0 : v = 0 <;>
          simp [get_word_lists, h1, h0, get_word_lists_incorrect words rest]

/-- Each `advance` grows `level_history` by one entry and `trial_index` by
one, from any handler state. -/
theorem run_length_aux (outcomes : List Outcome) :
    ∀ h : AdaptiveTrialHandler,
      ((h.run outcomes).level_history.length
          = h.level_history.length + outcomes.length)
      ∧ (h.run outcomes).trial_index = h.trial_index + outcomes.length := by
  induction outcomes with
  | nil => intro h; simp [AdaptiveTrialHandler.run]
  | cons o os ih =>
      intro h
      have hstep : h.run (o :: os) = (h.advance o).run os := rfl
      have := ih (h.advance o)
      rw [hstep, this.1, this.2] at *
      constructor <;> simp [AdaptiveTrialHandler.advance] <;> omega

/-! ## Claims -/

/-- C2: for every level history with at least 5 entries, the threshold
estimate is the arithmetic mean of the entries from index 4 onward minus
the noise level; for `[70,66,68,64,62,60,58,56]` and noise 65 it is -6. -/
theorem get_snr_mean_rule (levels : List ℚ) (noise : ℚ)
    (h : 5 ≤ levels.length) :
    (get_snr levels noise
        = some ((levels.drop 4).sum / ((levels.drop 4).length : ℚ) - noise))
  ∧ get_snr [70, 66, 68, 64, 62, 60, 58, 56] 65 = some (-6) := by
  constructor
  · have hne : levels.drop 4 ≠ [] := by
      rw [Ne, List.drop_eq_nil_iff]
      omega
    simp [get_snr, mean, hne]
  · show (mean ((List.drop 4 [70, 66, 68, 64, 62, 60, 58, 56]))).map _ = _
    norm_num [mean]
    exact ⟨59, ⟨by simp, rfl⟩, by norm_num⟩

/-- Witness for C2 at the spec's concrete scenario. -/
theorem get_snr_mean_rule_witness :
    get_snr [70, 66, 68, 64, 62, 60, 58, 56] 65
      = some ((([70, 66, 68, 64, 62, 60, 58, 56] : List ℚ).drop 4).sum
          / ((([70, 66, 68, 64, 62, 60, 58, 56] : List ℚ).drop 4).length : ℚ)
          - 65) :=
  (get_snr_mean_rule [70, 66, 68, 64, 62, 60, 58, 56] 65 (by decide)).1

/-- C5: the threshold estimator fails exactly when the level history has
fewer than 5 entries (the mean of the empty slice `trial_levels[4:]`
raises), and is defined for every length of at least 5. -/
theorem get_snr_insufficient_iff (levels : List ℚ) (noise : ℚ) :
    (get_snr levels noise = none ↔ levels.length < 5)
  ∧ ((get_snr levels noise).isSome ↔ 5 ≤ levels.length) := by
  have hkey : get_snr levels noise = none ↔ levels.length < 5 := by
    by_cases hd : levels.drop 4 = []
    · have hle := List.drop_eq_nil_iff.mp hd
      simp [get_snr, mean, hd]
      omega
    · have hd4 : ¬ levels.length ≤ 4 := fun h => hd (List.drop_eq_nil_iff.mpr h)
      simp [get_snr, mean, hd]
      omega
  refine ⟨hkey, ?_⟩
  rw [Option.isSome_iff_ne_none, Ne, hkey, Nat.not_lt]

/-- C4: the outcome is PASS (`1`) iff `incorrect` is empty and FAIL (`-1`)
otherwise; the word marks `the`:1, `dog`:1, `ran`:0 score FAIL with
`incorrect = ["ran"]`. -/
theorem outcome_pass_iff (words : String → String)
    (bs : List (String × Int)) :
    (get_outcome (get_word_lists words bs) = 1
        ↔ (get_word_lists words bs).incorrect = [])
  ∧ (get_outcome (get_word_lists words bs) = -1
        ↔ (get_word_lists words bs).incorrect ≠ [])
  ∧ get_word_lists (fun s => s) [("the", 1), ("dog", 1), ("ran", 0)]
      = ⟨["the", "dog"], ["ran"]⟩
  ∧ get_outcome ⟨["the", "dog"], ["ran"]⟩ = -1 := by
  refine ⟨?_, ?_, by decide, by decide⟩ <;>
    by_cases h : (get_word_lists words bs).incorrect = [] <;>
      simp [get_outcome, h]

/-- C7 counterexample: `score` is not free of persisted state — it stores
the outcome in the scorer's public `outcome` attribute, so the scorer's
observable state changes across calls. -/
theorem score_mutates_scorer :
    (ScoreModel.init.score (fun s => s) [("a", 1)]).1 ≠ ScoreModel.init := by
  decide

/-- C7 amended: `score` is deterministic in its inputs — the returned word
partition is `get_word_lists` of the inputs, independent of the scorer's
prior state — but it persists the outcome in `self.outcome` (leaving
`final_snr` untouched). -/
theorem score_deterministic (sm other : ScoreModel)
    (words : String → String) (bs : List (String × Int)) :
    ((sm.score words bs).2 = get_word_lists words bs)
  ∧ ((sm.score words bs).2 = (other.score words bs).2)
  ∧ ((sm.score words bs).1.outcome
        = some (get_outcome (get_word_lists words bs)))
  ∧ ((sm.score words bs).1.final_snr = sm.final_snr) := by
  refine ⟨rfl, rfl, rfl, rfl⟩

/-- C8 counterexample: permuting the word-mark mapping does not yield the
same Trial Outcome record — the `correct` list comes out in the permuted
mapping order. -/
theorem score_order_dependent :
    (([(("a" : String), (1 : Int)), ("b", 1)]).Perm [("b", 1), ("a", 1)])
  ∧ get_word_lists (fun s => s) [("a", 1), ("b", 1)]
      ≠ get_word_lists (fun s => s) [("b", 1), ("a", 1)] := by
  exact ⟨by decide, by decide⟩

/-- C8 amended: permuting the word-mark mapping permutes `correct_words`
and `incorrect_words` accordingly (equal as multisets) and preserves the
pass/fail outcome. -/
theorem score_perm_invariant (words : String → String)
    (bs bsp : List (String × Int)) (hperm : bs.Perm bsp) :
    ((get_word_lists words bs).correct.Perm
        (get_word_lists words bsp).correct)
  ∧ ((get_word_lists words bs).incorrect.Perm
        (get_word_lists words bsp).incorrect)
  ∧ (get_outcome (get_word_lists words bs)
        = get_outcome (get_word_lists words bsp)) := by
  have hc : (get_word_lists words bs).correct.Perm
      (get_word_lists words bsp).correct := by
    rw [get_word_lists_correct, get_word_lists_correct]
    exact (hperm.filter _).map _
  have hi : (get_word_lists words bs).incorrect.Perm
      (get_word_lists words bsp).incorrect := by
    rw [get_word_lists_incorrect, get_word_lists_incorrect]
    exact (hperm.filter _).map _
  refine ⟨hc, hi, ?_⟩
  have hlen := hi.length_eq
  by_cases hnil : (get_word_lists words bs).incorrect = []
  · have : (get_word_lists words bsp).incorrect = [] := by
      rw [← List.length_eq_zero, ← hlen, hnil]; rfl
    simp [get_outcome, hnil, this]
  · have : (get_word_lists words bsp).incorrect ≠ [] := by
      intro hx
      rw [← List.length_eq_zero, hlen, hx] at hnil
      exact hnil rfl
    simp [get_outcome, hnil, this]

/-- Witness for the amended C8 at a concrete permuted pair. -/
theorem score_perm_invariant_witness :
    (([(("a" : String), (1 : Int)), ("b", 0)]).Perm [("b", 0), ("a", 1)])
  ∧ ((get_word_lists (fun s => s) [("a", 1), ("b", 0)]).correct.Perm
        (get_word_lists (fun s => s) [("b", 0), ("a", 1)]).correct)
  ∧ ((get_word_lists (fun s => s) [("a", 1), ("b", 0)]).incorrect.Perm
        (get_word_lists (fun s => s) [("b", 0), ("a", 1)]).incorrect)
  ∧ (get_outcome (get_word_lists (fun s => s) [("a", 1), ("b", 0)])
        = get_outcome (get_word_lists (fun s => s) [("b", 0), ("a", 1)])) :=
  ⟨by decide, score_perm_invariant (fun s => s) _ _ (by decide)⟩

/-- C9: trial selection returns exactly the trials whose `list_num` is in
the selected lists, preserving catalog order, and is empty (not an error)
precisely when no trial matches. -/
theorem select_trials_spec (matrix : List Trial) (lists : List Int) :
    (∀ t : Trial,
        t ∈ select_trials matrix lists ↔ t ∈ matrix ∧ t.list_num ∈ lists)
  ∧ List.Sublist (select_trials matrix lists) matrix
  ∧ (select_trials matrix lists = [] ↔ ∀ t ∈ matrix, t.list_num ∉ lists) := by
  refine ⟨?_, List.filter_sublist matrix, ?_⟩ <;>
    simp [select_trials, List.mem_filter, List.filter_eq_nil_iff]

/-- C3: the step applied at trial `i` is `step_sizes[min(i, len-1)]` (the
last step repeats once the schedule is exhausted); `advance` raises the
level by the step on FAIL and lowers it on PASS; the spec's concrete
`[4,4,2]` / 65 scenario runs 65 → 69 → 65 → 67, with step 2 from trial 2
onward. -/
theorem advance_step_rule (h : AdaptiveTrialHandler) :
    ((h.advance .fail).parameter
        = h.parameter + (step_at h.step_sizes h.trial_index : Int))
  ∧ ((h.advance .pass).parameter
        = h.parameter - (step_at h.step_sizes h.trial_index : Int))
  ∧ (∀ i : Nat, step_at h.step_sizes i
        = h.step_sizes.getD (min i (h.step_sizes.length - 1)) 0)
  ∧ (((AdaptiveTrialHandler.init [4, 4, 2] 65).advance .fail).parameter = 69)
  ∧ ((((AdaptiveTrialHandler.init [4, 4, 2] 65).advance .fail).advance
        .pass).parameter = 65)
  ∧ (((((AdaptiveTrialHandler.init [4, 4, 2] 65).advance .fail).advance
        .pass).advance .fail).parameter = 67)
  ∧ (∀ j : Nat, step_at [4, 4, 2] (j + 2) = 2) := by
  refine ⟨rfl, rfl, fun i => rfl, ?_, ?_, ?_, ?_⟩
  · norm_num [AdaptiveTrialHandler.advance, AdaptiveTrialHandler.init, step_at]
  · norm_num [AdaptiveTrialHandler.advance, AdaptiveTrialHandler.init, step_at]
  · norm_num [AdaptiveTrialHandler.advance, AdaptiveTrialHandler.init, step_at]
  · intro j
    have hmin : min (j + 2) 2 = 2 := by omega
    simp [step_at, hmin]

/-- C6: after `k` advances from a fresh handler, `level_history` has
exactly `k` entries and `trial_index` is `k`; each advance appends the
level used for the trial just scored (the pre-adjustment `parameter`). -/
theorem run_level_history (step_sizes : List Int) (start : ℚ)
    (outcomes : List Outcome) :
    (((AdaptiveTrialHandler.init step_sizes start).run
        outcomes).level_history.length = outcomes.length)
  ∧ (((AdaptiveTrialHandler.init step_sizes start).run
        outcomes).trial_index = outcomes.length)
  ∧ (∀ (h : AdaptiveTrialHandler) (o : Outcome),
        (h.advance o).level_history = h.level_history ++ [h.parameter]) := by
  refine ⟨?_, ?_, fun h o => rfl⟩
  · have h1 := (run_length_aux outcomes
      (AdaptiveTrialHandler.init step_sizes start)).1
    simpa [AdaptiveTrialHandler.init] using h1
  · have h2 := (run_length_aux outcomes
      (AdaptiveTrialHandler.init step_sizes start)).2
    simpa [AdaptiveTrialHandler.init] using h2

/-- C10: on a fresh session, before any trial has been scored,
`ScoreModel` carries no `outcome` attribute, and the first `on_next` —
which passes `self.sm.outcome` to the trial handler — fails (the
attribute access is not total). -/
theorem first_on_next_not_total (step_sizes : List Int)
    (start desired : ℚ) (words : String → String)
    (bs : List (String × Int)) (sr : SaveResult) :
    ((Controller.init step_sizes start desired).sm.outcome = none)
  ∧ (on_next (Controller.init step_sizes start desired) words bs sr
        = none) := by
  exact ⟨rfl, rfl⟩

/-- C1: when the per-trial CSV write fails with `PermissionError`, `_save`
catches and swallows the error, and `on_next` nevertheless appends the
level and advances the staircase — the row is never written (no rows
saved), yet `trial_index` goes from 1 to 2 and the level moves from 69 to
73, so the same write cannot be re-attempted without data loss. -/
theorem save_failure_still_advances :
    (on_next cDemo (fun s => s) [("the", 0)] SaveResult.permissionError).map
        (fun c => (c.ath.trial_index, c.saved_rows, c.level_data,
          c.ath.parameter))
      = some (2, [], [(69 : ℚ)], 73) := by
  norm_num [on_next, cDemo, ScoreModel.score, get_word_lists, get_outcome,
    save_step, AdaptiveTrialHandler.advance, step_at]

end HINT
